import Mathlib

/-!
Shallow embedding of the record-management service in `app.py`.

The program stores CSV rows as dictionaries with the keys
`Rollno`, `name`, `english`, `maths`, `science`; a numeric field is kept as
a string and parsed with `float(...)` only inside the aggregation.  We model
a row as a `Record` whose three score fields are `Option String`
(`none` models a row whose key is missing, which raises `KeyError` exactly
like a non-numeric string raises `ValueError`).  Python floats are modelled
as exact rationals, and `round(x, 2)` as round-half-to-even on rationals.
-/

namespace App

/-- One CSV row, as produced by `csv.DictReader`. -/
structure Record where
  rollno : String
  name : String
  english : Option String
  maths : Option String
  science : Option String
deriving DecidableEq, Repr

/-- One entry of the aggregation output (`Rollno`, `name`, `average`). -/
structure Metric where
  rollno : String
  name : String
  average : ℚ
deriving DecidableEq, Repr

/-- Accumulate a run of decimal digits; fails on any non-digit. -/
def parseDigitsAux : List Char → ℕ → Option ℕ
  | [], acc => some acc
  | c :: cs, acc =>
    if c.isDigit then parseDigitsAux cs (acc * 10 + (c.toNat - 48)) else none

/-- Parse an unsigned decimal numeral, optionally with a fractional part.
Models the plain-decimal subset of Python `float(...)` (no exponents,
no `inf`/`nan`, no surrounding whitespace); every string the claims use is
in this subset. -/
def parseUnsignedFloat (cs : List Char) : Option ℚ :=
  match cs.splitOn '.' with
  | [intPart] =>
    if intPart.isEmpty then none
    else (parseDigitsAux intPart 0).map (fun n => (n : ℚ))
  | [intPart, fracPart] =>
    if intPart.isEmpty && fracPart.isEmpty then none
    else
      match parseDigitsAux intPart 0, parseDigitsAux fracPart 0 with
      | some a, some b => some ((a : ℚ) + (b : ℚ) / (10 : ℚ) ^ fracPart.length)
      | _, _ => none
  | _ => none

/-- Python `float(s)` on our plain-decimal subset. -/
def parseFloat (s : String) : Option ℚ :=
  match s.toList with
  | [] => none
  | '-' :: rest => (parseUnsignedFloat rest).map Neg.neg
  | '+' :: rest => parseUnsignedFloat rest
  | cs => parseUnsignedFloat cs

/-- Model of `float(record[key])`: `none` on a missing key (`KeyError`) or a
non-numeric value (`ValueError`). -/
def parseField : Option String → Option ℚ
  | none => none
  | some s => parseFloat s

/-- Floor of a rational, computed from numerator and denominator. -/
def floorQ (q : ℚ) : ℤ := Int.fdiv q.num (q.den : ℤ)

/-- Round a rational to the nearest integer, ties to even
(the rule of CPython `round`, with floats taken as exact rationals). -/
def roundHalfEven (x : ℚ) : ℤ :=
  let n := floorQ x
  let frac := x - (n : ℚ)
  if frac < 1 / 2 then n
  else if 1 / 2 < frac then n + 1
  else if n % 2 = 0 then n else n + 1

/-- Python `round(x, 2)` on exact rationals. -/
def pythonRound2 (x : ℚ) : ℚ := (roundHalfEven (x * 100) : ℚ) / 100

/-- The message built by `student_average` when a record fails to parse.
The Python f-string interpolates the whole record dict and the exception;
we keep an abbreviated text (the claims never depend on the exact wording,
only on the string being returned in place of the result list). -/
def errorMsg (r : Record) : String :=
  "Error processing record " ++ r.rollno

/-- Embedding of `student_average(records)`: walk the records in order; on the first
record whose `english`/`maths`/`science` field fails to parse, return the
error STRING (the Python function returns `f"Error processing record ..."`
instead of the list); otherwise return the list of averages. -/
def student_average : List Record → Except String (List Metric)
  | [] => Except.ok []
  | r :: rs =>
    match parseField r.english, parseField r.maths, parseField r.science with
    | some e, some m, some s =>
      match student_average rs with
      | Except.ok l =>
        Except.ok ({ rollno := r.rollno, name := r.name,
                     average := pythonRound2 ((e + m + s) / 3) } :: l)
      | Except.error msg => Except.error msg
    | _, _, _ => Except.error (errorMsg r)

/-- One element of the shared `results` list.  Because `worker` runs
`results.extend(chunk_results)` and `student_average` returns a STRING on a
parse failure, Python `list.extend` then appends the characters of the string
one by one; the shared list can therefore hold both metric dicts and
characters. -/
inductive Item where
  | metric (m : Metric)
  | chr (c : Char)
deriving DecidableEq, Repr

/-- One iteration of the `worker` loop: pull a chunk from the queue, run
`student_average`, and `results.extend(chunk_results)` under the lock.
On the ok branch `extend` appends the metrics; on the error branch the
return value is a string, so `extend` appends its characters. -/
def worker_step (results : List Item) (chunk : List Record) : List Item :=
  match student_average chunk with
  | Except.ok l => results ++ l.map Item.metric
  | Except.error s => results ++ s.toList.map Item.chr

/-- Chunk size `max(len(records) // num_threads, 1)` (line 292). -/
def chunk_size (n num_threads : ℕ) : ℕ := max (n / num_threads) 1

/-- Python `range(0, stop, step)` for a positive step. -/
def pyRange (stop step : ℕ) : List ℕ :=
  (List.range ((stop + step - 1) / step)).map (· * step)

/-- The enqueue loop
`for i in range(0, len(records), chunk_size): q.put(records[i:i+chunk_size])`:
the queue contents, in dispatch order.  `records[i:i+s]` is `drop i` then
`take s`. -/
def enqueue_chunks (records : List Record) (s : ℕ) : List (List Record) :=
  (pyRange records.length s).map (fun i => (records.drop i).take s)

/-- The contents of the shared `results` list after all workers have been
joined, for `n` worker threads.  The workers pull chunks from the queue
with at-most-once delivery and extend `results` under one lock, so the
final contents are the chunk contributions in some interleaving; we take
the queue (dispatch) order as the reference schedule. -/
def aggregate_results (records : List Record) (n : ℕ) : List Item :=
  (enqueue_chunks records (chunk_size records.length n)).foldl worker_step []

/-- The `app` section of `config.json` (line 25 reads
`thread_size`/`queue_size` with defaults 10). -/
structure AppConfig where
  thread_size : Option ℕ
  queue_size : Option ℕ
deriving DecidableEq, Repr

/-- Module-level `num_threads = config["app"].get("thread_size", 10)`
(line 25). -/
def num_threads (cfg : AppConfig) : ℕ := cfg.thread_size.getD 10

/-- The worker count `average_scores` actually uses: line 291 rebinds
`num_threads = 10` as a local variable, shadowing the configured module
value for the whole route. -/
def average_scores_worker_count (_cfg : AppConfig) : ℕ := 10

/-- The three outcomes of the `/average` route. -/
inductive AvgResponse where
  | noRecords
  | noResults
  | ok (items : List Item)
deriving DecidableEq, Repr

/-- The `/average` route body after `read_csv` has produced `records`:
`if not records` returns the 404 `No records found`; otherwise chunks are
enqueued, the workers are run and joined, and `if not results` returns the
500 `No results computed`, else the 200 payload. -/
def average_scores (cfg : AppConfig) (records : List Record) : AvgResponse :=
  if records = [] then AvgResponse.noRecords
  else
    let results := aggregate_results records (average_scores_worker_count cfg)
    if results = [] then AvgResponse.noResults else AvgResponse.ok results

/-- What `read_csv` returns: either the record list, or — on
`FileNotFoundError` — the `jsonify({"error": ...})` Response object,
returned as an ordinary value (nothing is raised to the caller). -/
inductive ReadCsvResult where
  | records (rs : List Record)
  | errorResponse (msg : String)
deriving DecidableEq, Repr

/-- Embedding of `read_csv()`: the backing file is modelled as `Option (List Record)`,
`none` meaning `open` raises `FileNotFoundError`.  On that exception the
function returns `jsonify({"error": f"FileNotFoundError ..."})` — a normal
return value, not an exception and not a distinguished error of the
storage contract. -/
def read_csv (file : Option (List Record)) : ReadCsvResult :=
  match file with
  | some rs => ReadCsvResult.records rs
  | none => ReadCsvResult.errorResponse "FileNotFoundError"

/-- Errors of the record-store routes (`404 Record not found`). -/
inductive StoreError where
  | notFound
deriving DecidableEq, Repr

/-- The `valid_fields` list of `update_record` (line 159). -/
def valid_fields : List String := ["Rollno", "name", "english", "maths", "science"]

/-- One step of `record.update(filtered_data)`, for one key/value pair: assign the
matching CSV column.  Keys outside the schema never reach this function
(they are filtered out before), and CSV rows always carry exactly these
keys. -/
def applyField (r : Record) (kv : String × String) : Record :=
  if kv.1 = "Rollno" then { r with rollno := kv.2 }
  else if kv.1 = "name" then { r with name := kv.2 }
  else if kv.1 = "english" then { r with english := some kv.2 }
  else if kv.1 = "maths" then { r with maths := some kv.2 }
  else if kv.1 = "science" then { r with science := some kv.2 }
  else r

/-- Model of `record.update(filtered_data)`: apply every pair in insertion order. -/
def applyFields (r : Record) (data : List (String × String)) : Record :=
  data.foldl applyField r

/-- The `for record in records: if record["Rollno"] == rollno: ...; break`
loop: update the first matching record in place; `none` when no record
matches (`updated` stays `False`). -/
def update_first (rollno : String) (fd : List (String × String)) :
    List Record → Option (List Record)
  | [] => none
  | r :: rs =>
    if r.rollno = rollno then some (applyFields r fd :: rs)
    else
      match update_first rollno fd rs with
      | some rs2 => some (r :: rs2)
      | none => none

/-- Embedding of the PUT route `update_record(rollno)`: filter the payload down to
`valid_fields`, update the first matching record, 404 when absent,
otherwise `write_csv(records)` persists the full set (returned here as the
ok value). -/
def update_record (rollno : String) (data : List (String × String))
    (records : List Record) : Except StoreError (List Record) :=
  let filtered_data := data.filter (fun kv => valid_fields.contains kv.1)
  match update_first rollno filtered_data records with
  | some newRecords => Except.ok newRecords
  | none => Except.error StoreError.notFound

/-- Embedding of the DELETE route `delete_record(rollno)`: keep the records whose
`Rollno` differs; if the filtered list equals the original, answer 404,
else `write_csv(new_records)`. -/
def delete_record (rollno : String) (records : List Record) :
    Except StoreError (List Record) :=
  let new_records := records.filter (fun r => r.rollno != rollno)
  if new_records = records then Except.error StoreError.notFound
  else Except.ok new_records

/-- The delete route together with its effect on the backing file: the 404
branch returns before `write_csv`, so the stored set is unchanged there;
the ok branch overwrites the file with the remaining records. -/
def delete_op (rollno : String) (store : List Record) :
    Except StoreError Unit × List Record :=
  match delete_record rollno store with
  | Except.ok newRecords => (Except.ok (), newRecords)
  | Except.error e => (Except.error e, store)

/-- Decidable check that `parseField` succeeds on all three scores of `r`. -/
def parsesb (r : Record) : Bool :=
  (parseField r.english).isSome && (parseField r.maths).isSome
    && (parseField r.science).isSome

/-- The metric `student_average` builds for a record all of whose fields
parse (used to state the all-success behaviour; `getD 0` is never hit
under the `parsesb` hypothesis). -/
def metricOfParsed (r : Record) : Metric :=
  { rollno := r.rollno, name := r.name,
    average := pythonRound2 (((parseField r.english).getD 0
      + (parseField r.maths).getD 0 + (parseField r.science).getD 0) / 3) }

/-- The identifiers carried by the metric entries of a result list
(characters leaked by the error path carry none). -/
def itemIds (items : List Item) : List String :=
  items.filterMap (fun it =>
    match it with
    | Item.metric m => some m.rollno
    | Item.chr _ => none)

/-- Per-record output value in the words of the spec: the arithmetic mean of the three
parsed field values, rounded to 2 decimal places (`none` when a field does
not parse). -/
def expectedAverage (r : Record) : Option ℚ :=
  match parseField r.english, parseField r.maths, parseField r.science with
  | some e, some m, some s => some (pythonRound2 ((e + m + s) / 3))
  | _, _, _ => none

/-- A config whose `app` section sets neither tunable. -/
def defaultConfig : AppConfig := ⟨none, none⟩

/-- Concrete records used in the concrete-input theorems. -/
def recA : Record := ⟨"1", "alice", some "90", some "80", some "70"⟩

def recB : Record := ⟨"2", "bob", some "60", some "50", some "40"⟩

/-- A record whose `english` field is not numeric (`float` raises
`ValueError`). -/
def badRec : Record := ⟨"3", "carol", some "abc", some "80", some "70"⟩

/-- A second record sharing the identifier of `recA`. -/
def recA2 : Record := ⟨"1", "dave", some "10", some "20", some "30"⟩

/-- The record `recA` after an update that rewrites its `Rollno` to `"2"`. -/
def recARenamed : Record := ⟨"2", "alice", some "90", some "80", some "70"⟩

/-- The metric `student_average` produces for `recA`. -/
def metricA : Metric := { rollno := "1", name := "alice", average := (80 : ℚ) }

/-! ## Lemmas about the chunking loop -/

theorem ceil_div_succ (n s : ℕ) (hs : 0 < s) (hn : 0 < n) :
    (n + s - 1) / s = (n - s + s - 1) / s + 1 := by
  have e1 : n + s - 1 = (n - 1) + s := by omega
  rw [e1, Nat.add_div_right _ hs]
  rcases le_or_lt n s with h | h
  · have e2 : n - s + s - 1 = s - 1 := by omega
    rw [e2, Nat.div_eq_of_lt (by omega), Nat.div_eq_of_lt (by omega)]
  · have e2 : n - s + s - 1 = n - 1 := by omega
    rw [e2]

theorem enqueue_chunks_nil (s : ℕ) : enqueue_chunks [] s = [] := by
  cases s with
  | zero => rfl
  | succ m =>
    have h : m / (m + 1) = 0 := Nat.div_eq_of_lt (by omega)
    simp [enqueue_chunks, pyRange, h]

theorem enqueue_chunks_cons (s : ℕ) (hs : 0 < s) (a : Record) (t : List Record) :
    enqueue_chunks (a :: t) s
      = (a :: t).take s :: enqueue_chunks ((a :: t).drop s) s := by
  have hceil : ((a :: t).length + s - 1) / s
      = (((a :: t).drop s).length + s - 1) / s + 1 := by
    rw [List.length_drop]
    exact ceil_div_succ _ s hs (by simp)
  simp only [enqueue_chunks, pyRange, hceil, List.range_succ_eq_map,
    List.map_cons, List.map_map]
  congr 1
  · simp
  · apply List.map_congr_left
    intro i _
    simp only [Function.comp]
    rw [List.drop_drop]
    have e : i.succ * s = s + i * s := by
      rw [Nat.succ_mul, Nat.add_comm]
    rw [e]

theorem enqueue_chunks_flatten_aux (n s : ℕ) (hs : 0 < s) :
    ∀ l : List Record, l.length ≤ n → (enqueue_chunks l s).flatten = l := by
  induction n with
  | zero =>
    intro l hl
    have h : l = [] := List.length_eq_zero.mp (Nat.le_zero.mp hl)
    rw [h, enqueue_chunks_nil]
    rfl
  | succ n ih =>
    intro l hl
    match l with
    | [] => rw [enqueue_chunks_nil]; rfl
    | a :: t =>
      rw [enqueue_chunks_cons s hs a t, List.flatten_cons,
        ih ((a :: t).drop s) (by simp at hl ⊢; omega),
        List.take_append_drop]

theorem enqueue_chunks_flatten (s : ℕ) (hs : 0 < s) (l : List Record) :
    (enqueue_chunks l s).flatten = l :=
  enqueue_chunks_flatten_aux l.length s hs l le_rfl

theorem enqueue_chunks_length (l : List Record) (s : ℕ) :
    (enqueue_chunks l s).length = (l.length + s - 1) / s := by
  simp [enqueue_chunks, pyRange]

theorem enqueue_chunks_get (l : List Record) (s i : ℕ)
    (h : i < (enqueue_chunks l s).length) :
    (enqueue_chunks l s).get ⟨i, h⟩ = (l.drop (i * s)).take s := by
  simp [enqueue_chunks, pyRange]

theorem count_sum_of_flatten (r : Record) (L : List (List Record)) :
    (L.map (fun c => c.count r)).sum = L.flatten.count r := by
  induction L with
  | nil => simp
  | cons c cs ih => simp [List.count_append, ih]

/-! ## Lemmas about `student_average` and the worker loop -/

theorem student_average_ok_of_parses :
    ∀ c : List Record, c.all parsesb = true →
      student_average c = Except.ok (c.map metricOfParsed) := by
  intro c
  induction c with
  | nil => intro _; rfl
  | cons r rs ih =>
    intro h
    rw [List.all_cons, Bool.and_eq_true] at h
    obtain ⟨hr, hrs⟩ := h
    rw [parsesb, Bool.and_eq_true, Bool.and_eq_true] at hr
    obtain ⟨⟨he, hm⟩, hs⟩ := hr
    obtain ⟨e, hee⟩ := Option.isSome_iff_exists.mp he
    obtain ⟨m, hmm⟩ := Option.isSome_iff_exists.mp hm
    obtain ⟨s, hss⟩ := Option.isSome_iff_exists.mp hs
    simp only [student_average, hee, hmm, hss, ih hrs, List.map_cons]
    simp [metricOfParsed, hee, hmm, hss]

theorem foldl_worker_step :
    ∀ (chunks : List (List Record)) (acc : List Item),
      (∀ c ∈ chunks, c.all parsesb = true) →
      chunks.foldl worker_step acc
        = acc ++ chunks.flatten.map (fun r => Item.metric (metricOfParsed r)) := by
  intro chunks
  induction chunks with
  | nil => intro acc _; simp
  | cons c cs ih =>
    intro acc h
    have hc := h c (by simp)
    have hcs : ∀ x ∈ cs, x.all parsesb = true := fun x hx => h x (by simp [hx])
    rw [List.foldl_cons, ih _ hcs]
    simp only [worker_step, student_average_ok_of_parses c hc]
    simp [List.map_map, List.append_assoc]

theorem aggregate_results_all_ok (records : List Record) (n : ℕ)
    (h : records.all parsesb = true) :
    aggregate_results records n
      = records.map (fun r => Item.metric (metricOfParsed r)) := by
  have hs : 0 < chunk_size records.length n := le_max_right _ _
  have hmem : ∀ c ∈ enqueue_chunks records (chunk_size records.length n),
      c.all parsesb = true := by
    intro c hc
    rw [List.all_eq_true]
    intro r hr
    have hrmem : r ∈ records := by
      rw [← enqueue_chunks_flatten (chunk_size records.length n) hs records]
      exact List.mem_flatten.mpr ⟨c, hc, hr⟩
    exact List.all_eq_true.mp h r hrmem
  rw [aggregate_results, foldl_worker_step _ _ hmem,
    enqueue_chunks_flatten _ hs, List.nil_append]

theorem itemIds_map_metric (l : List Record) :
    itemIds (l.map (fun r => Item.metric (metricOfParsed r)))
      = l.map Record.rollno := by
  induction l with
  | nil => rfl
  | cons r rs ih => simp [itemIds, List.filterMap_cons] at ih ⊢; exact ⟨rfl, ih⟩

theorem student_average_ok_inv :
    ∀ (records : List Record) (l : List Metric),
      student_average records = Except.ok l →
      l = records.map metricOfParsed ∧ records.all parsesb = true := by
  intro records
  induction records with
  | nil =>
    intro l h
    simp only [student_average, Except.ok.injEq] at h
    simp [← h]
  | cons r rs ih =>
    intro l h
    rcases hee : parseField r.english with _ | e <;>
      rcases hmm : parseField r.maths with _ | m <;>
        rcases hss : parseField r.science with _ | s <;>
          simp only [student_average, hee, hmm, hss] at h
    all_goals try exact Except.noConfusion h
    cases hR : student_average rs with
    | error msg => rw [hR] at h; simp at h
    | ok l2 =>
      rw [hR] at h
      simp only [Except.ok.injEq] at h
      obtain ⟨hl2, hall⟩ := ih l2 hR
      constructor
      · rw [← h, hl2, List.map_cons]
        congr 1
        simp [metricOfParsed, hee, hmm, hss]
      · rw [List.all_cons, Bool.and_eq_true]
        exact ⟨by simp [parsesb, hee, hmm, hss], hall⟩

theorem expectedAverage_of_parses (r : Record) (h : parsesb r = true) :
    expectedAverage r = some (metricOfParsed r).average := by
  rw [parsesb, Bool.and_eq_true, Bool.and_eq_true] at h
  obtain ⟨⟨he, hm⟩, hs⟩ := h
  obtain ⟨e, hee⟩ := Option.isSome_iff_exists.mp he
  obtain ⟨m, hmm⟩ := Option.isSome_iff_exists.mp hm
  obtain ⟨s, hss⟩ := Option.isSome_iff_exists.mp hs
  simp [expectedAverage, metricOfParsed, hee, hmm, hss]

/-- The scores 90/80/70 of `recA` average to exactly 80 after rounding. -/
theorem pythonRound2_90_80_70 :
    pythonRound2 ((((90 : ℕ) : ℚ) + ((80 : ℕ) : ℚ) + ((70 : ℕ) : ℚ)) / 3)
      = 80 := by
  push_cast
  norm_num [pythonRound2, roundHalfEven, floorQ, Int.fdiv]

theorem student_average_recA :
    student_average [recA] = Except.ok [metricA] := by
  simp only [metricA]
  rw [← pythonRound2_90_80_70]
  rfl

/-! ## Lemmas about the record-store routes -/

theorem update_first_none (rollno : String) (fd : List (String × String)) :
    ∀ records : List Record,
      records.all (fun r => r.rollno != rollno) = true →
      update_first rollno fd records = none := by
  intro records
  induction records with
  | nil => intro _; rfl
  | cons r rs ih =>
    intro h
    rw [List.all_cons, Bool.and_eq_true] at h
    obtain ⟨hr, hrs⟩ := h
    have hne : ¬ (r.rollno = rollno) := by simpa using hr
    simp only [update_first, if_neg hne, ih hrs]

theorem update_first_empty_of_mem (rollno : String) :
    ∀ records : List Record,
      records.any (fun r => r.rollno == rollno) = true →
      update_first rollno [] records = some records := by
  intro records
  induction records with
  | nil => intro h; simp at h
  | cons r rs ih =>
    intro h
    by_cases hr : r.rollno = rollno
    · simp only [update_first, if_pos hr]
      rfl
    · rw [List.any_cons] at h
      have hrs : rs.any (fun x => x.rollno == rollno) = true := by
        rcases Bool.or_eq_true_iff.mp h with h1 | h1
        · exact absurd (by simpa using h1) hr
        · exact h1
      simp only [update_first, if_neg hr, ih hrs]

/-! ## Claims -/

/-- C1 (behaviour at the failing input): a record set in which exactly one
record has a non-numeric field does NOT abort the whole aggregation with a
single error and no partial result.  With records `recA` (parses) and
`badRec` (non-numeric `english`), the chunks are `[[recA], [badRec]]`; the
worker extends the shared list with the metric of `recA`, and for the chunk
of `badRec` it extends it with the CHARACTERS of the error string returned by
`student_average`, so the route answers 200 with a partial result. -/
theorem average_scores_partial_on_parse_error :
    average_scores defaultConfig [recA, badRec]
      = AvgResponse.ok
          (Item.metric metricA :: (errorMsg badRec).toList.map Item.chr) := by
  simp only [metricA]
  rw [← pythonRound2_90_80_70]
  rfl

/-- C2 counterexample: for the input `[recA, recA2]` — two records that
share identifier `"1"` and whose fields all parse — the identifier `"1"`
appears twice among the output identifiers, so "no identifier appears
twice" fails for this input record set. -/
theorem duplicate_rollno_appears_twice :
    ([recA, recA2].all parsesb = true)
  ∧ (itemIds (aggregate_results [recA, recA2] 10)).count "1" = 2
  ∧ ¬ (itemIds (aggregate_results [recA, recA2] 10)).Nodup := by
  exact ⟨by decide, by decide, by decide⟩

/-- C2 (amended): for every record set whose numeric fields all parse, the
multiset of identifiers in the aggregation output equals the multiset of
input identifiers, with exactly one derived metric per input record, and
the output identifiers form the same set as the input; no identifier
appears twice provided the input identifiers are pairwise distinct. -/
theorem aggregate_output_ids_match_input (records : List Record)
    (h : records.all parsesb = true) :
    (∀ rno : String,
        (itemIds (aggregate_results records 10)).count rno
          = (records.map Record.rollno).count rno)
  ∧ (aggregate_results records 10).length = records.length
  ∧ (∀ rno : String,
        rno ∈ itemIds (aggregate_results records 10)
          ↔ rno ∈ records.map Record.rollno)
  ∧ ((records.map Record.rollno).Nodup
      → (itemIds (aggregate_results records 10)).Nodup) := by
  rw [aggregate_results_all_ok records 10 h, itemIds_map_metric]
  exact ⟨fun _ => rfl, by simp, fun _ => Iff.rfl, fun hd => hd⟩

/-- Witness for C2 at the two-record store `[recA, recB]`. -/
theorem aggregate_output_ids_match_input_witness :
    ([recA, recB].all parsesb = true)
  ∧ (aggregate_results [recA, recB] 10).length = [recA, recB].length
  ∧ (itemIds (aggregate_results [recA, recB] 10)).Nodup :=
  ⟨by decide,
   (aggregate_output_ids_match_input [recA, recB] (by decide)).2.1,
   (aggregate_output_ids_match_input [recA, recB] (by decide)).2.2.2 (by decide)⟩

/-- C3 (behaviour at the failing input): when the backing file cannot be
opened (`FileNotFoundError`), `read_csv` does not signal a distinguished
storage failure — it RETURNS the `jsonify` error Response as an ordinary
value, which its callers go on to use as a record set. -/
theorem read_csv_missing_file_returns_response_value :
    read_csv none = ReadCsvResult.errorResponse "FileNotFoundError" := rfl

/-- C4: the aggregation applied to an empty record set yields an empty
result without error: no chunk is enqueued, the shared result list stays
empty, and the per-record computation itself succeeds with `[]`.  (The
`/average` route separately reports the empty store as the caller-layer
`No records found` condition.) -/
theorem aggregate_empty_input_empty_output :
    aggregate_results [] 10 = [] ∧ student_average [] = Except.ok [] :=
  ⟨rfl, rfl⟩

/-- C5: for a record set of length `N` and worker count `W`, the chunk
size is `max(N // W, 1)`; the number of enqueued chunks is
`ceil(N / chunkSize)` (in ℕ, `(N + s - 1) / s`); each chunk is the
contiguous slice `records[i*s : i*s+s]`; concatenating the chunks in
dispatch order reconstructs the input, so every record lands in exactly
one chunk (counting multiplicity). -/
theorem chunk_partition_spec (records : List Record) (W : ℕ) (_hW : 0 < W) :
    chunk_size records.length W = max (records.length / W) 1
  ∧ (enqueue_chunks records (chunk_size records.length W)).length
      = (records.length + chunk_size records.length W - 1)
          / chunk_size records.length W
  ∧ (enqueue_chunks records (chunk_size records.length W)).flatten = records
  ∧ (∀ i (h : i < (enqueue_chunks records (chunk_size records.length W)).length),
        (enqueue_chunks records (chunk_size records.length W)).get ⟨i, h⟩
          = (records.drop (i * chunk_size records.length W)).take
              (chunk_size records.length W))
  ∧ (∀ r : Record,
        ((enqueue_chunks records (chunk_size records.length W)).map
            (fun c => c.count r)).sum = records.count r) := by
  have hs : 0 < chunk_size records.length W := le_max_right _ _
  refine ⟨rfl, enqueue_chunks_length _ _, enqueue_chunks_flatten _ hs _,
    fun i h => enqueue_chunks_get _ _ i h, fun r => ?_⟩
  rw [count_sum_of_flatten, enqueue_chunks_flatten _ hs]

/-- Witness for C5: five records, two workers (chunk size 2, three
chunks). -/
theorem chunk_partition_spec_witness :
    (enqueue_chunks [recA, recB, badRec, recA2, recB]
        (chunk_size [recA, recB, badRec, recA2, recB].length 2)).flatten
      = [recA, recB, badRec, recA2, recB]
  ∧ chunk_size [recA, recB, badRec, recA2, recB].length 2
      = max ([recA, recB, badRec, recA2, recB].length / 2) 1 :=
  ⟨(chunk_partition_spec [recA, recB, badRec, recA2, recB] 2 (by decide)).2.2.1,
   (chunk_partition_spec [recA, recB, badRec, recA2, recB] 2 (by decide)).1⟩

/-- C6 (behaviour at the failing input): with `thread_size = 5` configured,
the module-level `num_threads` is 5, but `average_scores` rebinds
`num_threads = 10` locally, so the aggregation always runs with 10 workers
and the configured value is never consulted. -/
theorem worker_count_ignores_config :
    num_threads ⟨some 5, some 10⟩ = 5
  ∧ average_scores_worker_count ⟨some 5, some 10⟩ = 10
  ∧ average_scores_worker_count ⟨some 5, some 10⟩
      ≠ num_threads ⟨some 5, some 10⟩ :=
  ⟨rfl, rfl, by decide⟩

/-- C7: whenever `student_average` succeeds, the metric produced for the
i-th record carries the arithmetic mean of its three parsed field values
rounded to 2 decimal places; fields (90, 80, 70) give 80.00 and
(100, 100, 99) give 99.67. -/
theorem student_average_mean_rounded (records : List Record) (l : List Metric)
    (h : student_average records = Except.ok l) :
    (∀ i : ℕ, (l[i]?).map Metric.average = (records[i]?).bind expectedAverage)
  ∧ pythonRound2 ((90 + 80 + 70 : ℚ) / 3) = 80
  ∧ pythonRound2 ((100 + 100 + 99 : ℚ) / 3) = 9967 / 100 := by
  obtain ⟨hl, hall⟩ := student_average_ok_inv records l h
  refine ⟨fun i => ?_, ?_, ?_⟩
  · rw [hl, List.getElem?_map]
    cases hg : records[i]? with
    | none => rfl
    | some r =>
      have hmem : r ∈ records := List.getElem?_mem hg
      have hp : parsesb r = true := List.all_eq_true.mp hall r hmem
      simp [expectedAverage_of_parses r hp]
  · norm_num [pythonRound2, roundHalfEven, floorQ, Int.fdiv]
  · norm_num [pythonRound2, roundHalfEven, floorQ, Int.fdiv]

/-- Witness for C7 at the record with scores (90, 80, 70). -/
theorem student_average_mean_rounded_witness :
    student_average [recA] = Except.ok [metricA]
  ∧ pythonRound2 ((90 + 80 + 70 : ℚ) / 3) = 80 :=
  ⟨student_average_recA,
   (student_average_mean_rounded [recA] [metricA] student_average_recA).2.1⟩

/-- C8: `update_record` applies only the fields in `valid_fields` (adding
the filter is a no-op), answers `NotFound` when no record carries the
identifier, and an update with an empty partial-fields set returns the
full record set unchanged for persisting. -/
theorem update_record_spec (rollno : String) (data : List (String × String))
    (records : List Record) :
    (records.all (fun r => r.rollno != rollno) = true →
        update_record rollno data records = Except.error StoreError.notFound)
  ∧ update_record rollno data records
      = update_record rollno
          (data.filter (fun kv => valid_fields.contains kv.1)) records
  ∧ (records.any (fun r => r.rollno == rollno) = true →
        update_record rollno [] records = Except.ok records) := by
  refine ⟨fun h => ?_, ?_, fun h => ?_⟩
  · simp only [update_record, update_first_none rollno _ records h]
  · simp only [update_record]
    rw [List.filter_filter]
    simp only [Bool.and_self]
  · simp only [update_record, List.filter_nil,
      update_first_empty_of_mem rollno records h]

/-- Witness for C8: `"9"` is absent from `[recA, recB]`, `"1"` is
present. -/
theorem update_record_spec_witness :
    update_record "9" [("name", "x")] [recA, recB]
      = Except.error StoreError.notFound
  ∧ update_record "1" [] [recA, recB] = Except.ok [recA, recB] :=
  ⟨(update_record_spec "9" [("name", "x")] [recA, recB]).1 (by decide),
   (update_record_spec "1" [] [recA, recB]).2.2 (by decide)⟩

/-- C9: deleting an identifier absent from the store answers `NotFound`
and leaves the stored set unchanged; repeating the same delete answers
`NotFound` again. -/
theorem delete_absent_notfound_twice (rollno : String) (store : List Record)
    (h : store.all (fun r => r.rollno != rollno) = true) :
    delete_op rollno store = (Except.error StoreError.notFound, store)
  ∧ delete_op rollno (delete_op rollno store).2
      = (Except.error StoreError.notFound, store) := by
  have hfil : store.filter (fun r => r.rollno != rollno) = store :=
    List.filter_eq_self.mpr (List.all_eq_true.mp h)
  have h1 : delete_op rollno store = (Except.error StoreError.notFound, store) := by
    simp [delete_op, delete_record, hfil]
  exact ⟨h1, by rw [h1]; exact h1⟩

/-- Witness for C9: `"9"` is absent from `[recA, recB]`. -/
theorem delete_absent_notfound_twice_witness :
    delete_op "9" [recA, recB]
      = (Except.error StoreError.notFound, [recA, recB]) :=
  (delete_absent_notfound_twice "9" [recA, recB] (by decide)).1

/-- C10: `Rollno` is itself in `valid_fields`, so an update may rewrite the
identifier: in the store `[recA, recB]` with distinct identifiers "1" and
"2", updating "1" with payload `Rollno := "2"` persists a store in which
the identifier "2" occurs twice. -/
theorem update_record_can_duplicate_rollno :
    recA.rollno ≠ recB.rollno
  ∧ update_record "1" [("Rollno", "2")] [recA, recB]
      = Except.ok [recARenamed, recB]
  ∧ (([recARenamed, recB]).map Record.rollno).count "2" = 2 :=
  ⟨by decide, by rfl, by decide⟩

end App
